import Mathlib

/-!
Verification of the simulation-environment bridge (`SpotEnv`,
`src/wasm/spot/training/envs/spot_env.py`) against its natural-language
specification.

Modelling conventions:
* Float values are modelled by `EF`: an exact rational for every finite
  float, plus the three non-finite values NaN, +Inf and -Inf.  Float
  literals of the source (`0.15`, `np.pi`, ...) become exact rationals;
  `piQ` is the rational value of `np.pi` rounded to float32 (the dtype of
  the observation arrays).
* The physics engine (pybullet) is an external collaborator: its state
  queries (`getBasePositionAndOrientation`, `getJointStates`,
  `getEulerFromQuaternion`, the gravity-vector transform built from
  `invertTransform`/`multiplyTransforms`) are modelled as inputs — a
  `Reading` record holding whatever the engine returned this tick.
* The global numpy random generator used by `reset` is modelled as an
  explicit state (`Nat`) threaded through an abstract `draw` transition
  function; `self.np_random` (seeded by `super().reset(seed=seed)`) is
  reflected by the unused `seed` argument of `resetEnv`, exactly as the
  source never reads it when sampling the command.
-/

/-- Extended float value: a finite rational, NaN, +Inf or -Inf. -/
inductive EF where
  | fin (q : ℚ)
  | nan
  | inf
  | ninf
deriving DecidableEq, Repr

namespace EF

/-- `np.isfinite` on a single value. -/
def isFinite : EF → Bool
  | fin _ => true
  | _ => false

/-- `np.nan_to_num` with default arguments on a float32 array entry:
NaN becomes 0.0, +Inf the largest finite float32, -Inf its negation. -/
def nanToNum (f32max : ℚ) : EF → EF
  | fin q => fin q
  | nan => fin 0
  | inf => fin f32max
  | ninf => fin (-f32max)

/-- `np.clip x lo hi = np.minimum (np.maximum x lo) hi`: NaN propagates,
+Inf clips to `hi`, -Inf clips to `lo`, a finite value is clamped. -/
def clip (lo hi : ℚ) : EF → EF
  | fin q => fin (min (max q lo) hi)
  | nan => nan
  | inf => fin hi
  | ninf => fin lo

/-- Numeric value of a finite reading (0 as a junk value otherwise; only
applied underneath finiteness guards or where no claim depends on it). -/
def toQ : EF → ℚ
  | fin q => q
  | _ => 0

end EF

/-- Largest finite float32 value, `(2 - 2^-23) * 2^127 = 2^128 - 2^104`,
the value `np.nan_to_num` substitutes for +Inf in a float32 array. -/
def f32max : ℚ := 340282346638528859811704183484516925440

/-- `np.pi` rounded to float32 (`13176795 / 2^22`), as an exact rational
in reduced form. -/
def piQ : ℚ := Rat.mk' 13176795 4194304

lemma piQ_eq : piQ = 13176795 / 4194304 := by
  rw [piQ, Rat.mk'_eq_divInt, Rat.divInt_eq_div]
  norm_num

lemma f32max_eq : f32max = 2 ^ 128 - 2 ^ 104 := by
  norm_num [f32max]

/-- `x` is a finite value lying inside the closed interval `[lo, hi]`. -/
def inSlotBound (lo hi : ℚ) (x : EF) : Bool :=
  match x with
  | EF.fin q => decide (lo ≤ q ∧ q ≤ hi)
  | _ => false

/-- The 12 controlled joint names, in the fixed order of
`SpotEnv.joint_names`. -/
def jointNames : List String :=
  ["motor_front_left_hip", "motor_front_left_upper_leg", "motor_front_left_lower_leg",
   "motor_front_right_hip", "motor_front_right_upper_leg", "motor_front_right_lower_leg",
   "motor_back_left_hip", "motor_back_left_upper_leg", "motor_back_left_lower_leg",
   "motor_back_right_hip", "motor_back_right_upper_leg", "motor_back_right_lower_leg"]

/-- `SpotEnv._load_robot`: resolve each fixed joint name against the
loaded body's name-to-index map, appending only the names that resolve
(a missing name is logged and skipped). -/
def buildJointIndices (resolve : String → Option Nat) : List Nat :=
  jointNames.filterMap resolve

/-- Per-slot `(low, high)` bounds of the 42-dimensional observation
space: gravity(3) in [-1,1], joint positions(12) in [-pi,pi], joint
velocities(12) in [-50,50], previous action(12) in [-pi,pi],
command(3) in [-1,1]. -/
def obsBounds : List (ℚ × ℚ) :=
  List.replicate 3 (-1, 1)
    ++ List.replicate 12 (-piQ, piQ)
    ++ List.replicate 12 (-50, 50)
    ++ List.replicate 12 (-piQ, piQ)
    ++ List.replicate 3 (-1, 1)

/-- Zero-pad a joint reading list on the right up to width 12
(`np.pad(xs, (0, 12 - len(xs)))`, applied when fewer than 12 joints
resolved). -/
def padTo12 (xs : List EF) : List EF :=
  xs ++ List.replicate (12 - xs.length) (EF.fin 0)

/-- The raw 42-slot concatenation built by `SpotEnv._get_observation`
before sanitising: gravity vector, joint positions, joint velocities,
previous action, command.  `angle`/`vel` give the engine's reading for a
physics joint index; `ji` is the resolved joint-index list. -/
def rawObs (g : List EF) (angle vel : Nat → EF) (ji : List Nat)
    (prev cmd : List EF) : List EF :=
  g ++ (padTo12 (ji.map angle)).take 12 ++ (padTo12 (ji.map vel)).take 12
    ++ prev ++ cmd

/-- The NaN/Inf guard of `_get_observation`: if any entry is non-finite,
replace the vector by `np.nan_to_num(obs)`. -/
def sanitizeObs (obs : List EF) : List EF :=
  if obs.all EF.isFinite then obs else obs.map (EF.nanToNum f32max)

/-- Componentwise `np.clip(obs, low, high)` against a bounds list. -/
def clipToBounds (bounds : List (ℚ × ℚ)) (obs : List EF) : List EF :=
  List.zipWith (fun b x => EF.clip b.1 b.2 x) bounds obs

/-- `SpotEnv._get_observation`: concatenate, sanitise non-finite values,
clip into the observation-space bounds. -/
def getObservation (g : List EF) (angle vel : Nat → EF) (ji : List Nat)
    (prev cmd : List EF) : List EF :=
  clipToBounds obsBounds (sanitizeObs (rawObs g angle vel ji prev cmd))

/-- Boolean check that every slot of `obs` is finite and inside the
paired bound. -/
def checkBounds (bounds : List (ℚ × ℚ)) (obs : List EF) : Bool :=
  (List.zipWith (fun b x => inSlotBound b.1 b.2 x) bounds obs).all (fun r => r)

lemma EF.isFinite_nanToNum (m : ℚ) (x : EF) :
    (EF.nanToNum m x).isFinite = true := by
  cases x <;> rfl

lemma EF.inSlotBound_clip (lo hi : ℚ) (x : EF) (hb : lo ≤ hi)
    (hx : x.isFinite = true) : inSlotBound lo hi (EF.clip lo hi x) = true := by
  cases x with
  | fin q =>
      simp only [EF.clip, inSlotBound, decide_eq_true_eq]
      exact ⟨le_min (le_max_right q lo) hb, min_le_right _ _⟩
  | nan => simp [EF.isFinite] at hx
  | inf => simp [EF.isFinite] at hx
  | ninf => simp [EF.isFinite] at hx

lemma EF.isFinite_clip (lo hi : ℚ) (x : EF) (hx : x.isFinite = true) :
    (EF.clip lo hi x).isFinite = true := by
  cases x <;> simp_all [EF.clip, EF.isFinite]

lemma checkBounds_clipToBounds :
    ∀ (bs : List (ℚ × ℚ)) (xs : List EF),
      (∀ b ∈ bs, b.1 ≤ b.2) → (∀ x ∈ xs, x.isFinite = true) →
      checkBounds bs (clipToBounds bs xs) = true := by
  intro bs
  induction bs with
  | nil => intro xs _ _; rfl
  | cons b bs ih =>
      intro xs hb hx
      cases xs with
      | nil => rfl
      | cons x xs =>
          have h1 : inSlotBound b.1 b.2 (EF.clip b.1 b.2 x) = true :=
            EF.inSlotBound_clip b.1 b.2 x (hb b (List.mem_cons_self b bs))
              (hx x (List.mem_cons_self x xs))
          have h2 := ih xs (fun c hc => hb c (List.mem_cons_of_mem b hc))
            (fun y hy => hx y (List.mem_cons_of_mem x hy))
          simp only [clipToBounds, checkBounds, List.zipWith_cons_cons,
            List.all_cons, Bool.and_eq_true]
          exact ⟨h1, h2⟩

lemma sanitizeObs_finite (obs : List EF) :
    ∀ x ∈ sanitizeObs obs, x.isFinite = true := by
  intro x hx
  unfold sanitizeObs at hx
  by_cases h : obs.all EF.isFinite
  · rw [if_pos h] at hx
    exact (List.all_eq_true.mp h) x hx
  · rw [if_neg h] at hx
    obtain ⟨y, _, rfl⟩ := List.mem_map.mp hx
    exact EF.isFinite_nanToNum f32max y

lemma obsBounds_sane : ∀ b ∈ obsBounds, b.1 ≤ b.2 := by
  intro b hb
  simp only [obsBounds, List.mem_append, List.mem_replicate] at hb
  rcases hb with ((((⟨-, rfl⟩ | ⟨-, rfl⟩) | ⟨-, rfl⟩) | ⟨-, rfl⟩) | ⟨-, rfl⟩) <;>
    norm_num [piQ_eq]

lemma obsBounds_length : obsBounds.length = 42 := by
  simp [obsBounds]

lemma padTo12_take_length (xs : List EF) :
    ((padTo12 xs).take 12).length = 12 := by
  simp only [List.length_take, padTo12, List.length_append,
    List.length_replicate]
  omega

lemma sanitizeObs_length (obs : List EF) :
    (sanitizeObs obs).length = obs.length := by
  unfold sanitizeObs
  split <;> simp

lemma rawObs_length (g : List EF) (angle vel : Nat → EF) (ji : List Nat)
    (prev cmd : List EF) (hg : g.length = 3) (hp : prev.length = 12)
    (hc : cmd.length = 3) :
    (rawObs g angle vel ji prev cmd).length = 42 := by
  have h1 := padTo12_take_length (ji.map angle)
  have h2 := padTo12_take_length (ji.map vel)
  simp only [rawObs, List.length_append, hg, hp, hc, h1, h2]

/-- All-zero joint reading (angle or velocity), for concrete instances. -/
def zeroJointFn : Nat → EF := fun _ => EF.fin 0

/-- The joint-index list of a fully resolved robot. -/
def stdJi : List Nat := [0, 1, 2, 3, 4, 5, 6, 7, 8, 9, 10, 11]

/-- All-zero previous action. -/
def prevZero : List EF := List.replicate 12 (EF.fin 0)

/-- All-zero command. -/
def cmdZero : List EF := List.replicate 3 (EF.fin 0)

/-- All-zero gravity reading. -/
def gZero : List EF := List.replicate 3 (EF.fin 0)

/-- C1: for every physics state reading (gravity vector, joint angles and
velocities of the resolved joints), every stored previous action (12
values) and every stored command (3 values), the observation returned by
`SpotEnv._get_observation` has length exactly 42 and every component is a
finite value lying inside its declared per-slot bound: gravity in
`[-1,1]`, joint positions and previous actions in `[-piQ,piQ]`, joint
velocities in `[-50,50]`, command in `[-1,1]`. -/
theorem C1_observation_length_and_bounds (g : List EF) (angle vel : Nat → EF)
    (ji : List Nat) (prev cmd : List EF) (hg : g.length = 3)
    (hp : prev.length = 12) (hc : cmd.length = 3) :
    (getObservation g angle vel ji prev cmd).length = 42 ∧
    checkBounds obsBounds (getObservation g angle vel ji prev cmd) = true := by
  constructor
  · have h := rawObs_length g angle vel ji prev cmd hg hp hc
    simp [getObservation, clipToBounds, List.length_zipWith,
      sanitizeObs_length, h, obsBounds_length]
  · exact checkBounds_clipToBounds obsBounds _ obsBounds_sane
      (sanitizeObs_finite _)

/-- C1 witness: the bound check evaluated at a concrete reading. -/
theorem C1_observation_length_and_bounds_witness :
    (getObservation gZero zeroJointFn zeroJointFn stdJi prevZero cmdZero).length = 42 ∧
    checkBounds obsBounds
      (getObservation gZero zeroJointFn zeroJointFn stdJi prevZero cmdZero) = true :=
  C1_observation_length_and_bounds gZero zeroJointFn zeroJointFn stdJi prevZero
    cmdZero (by rfl) (by rfl) (by rfl)

lemma clipToBounds_finite :
    ∀ (bs : List (ℚ × ℚ)) (xs : List EF), (∀ x ∈ xs, x.isFinite = true) →
      ∀ y ∈ clipToBounds bs xs, y.isFinite = true := by
  intro bs
  induction bs with
  | nil => intro xs _ y hy; simp [clipToBounds] at hy
  | cons b bs ih =>
      intro xs hx y hy
      cases xs with
      | nil => simp [clipToBounds] at hy
      | cons x xs =>
          simp only [clipToBounds, List.zipWith_cons_cons, List.mem_cons] at hy
          rcases hy with rfl | hy
          · exact EF.isFinite_clip b.1 b.2 x (hx x (List.mem_cons_self x xs))
          · exact ih xs (fun z hz => hx z (List.mem_cons_of_mem x hz)) y hy

lemma clipToBounds_get? (bs : List (ℚ × ℚ)) (xs : List EF) (i : Nat)
    (b : ℚ × ℚ) (x : EF) (hb : bs.get? i = some b) (hx : xs.get? i = some x) :
    (clipToBounds bs xs).get? i = some (EF.clip b.1 b.2 x) := by
  rw [clipToBounds, List.get?_zipWith', hb, hx]
  rfl

lemma sanitizeObs_of_not_finite (obs : List EF)
    (h : obs.all EF.isFinite = false) :
    sanitizeObs obs = obs.map (EF.nanToNum f32max) := by
  simp [sanitizeObs, h]

/-- Joint-velocity reading used in the C7 counterexample: joint 0 reads a
finite but out-of-bound velocity of 100 rad/s. -/
def velDemo : Nat → EF := fun i => if i = 0 then EF.fin 100 else EF.fin 0

/-- C7 counterexample: with a +Inf gravity reading in slot 0 the returned
observation holds 1 there (the +Inf entry is replaced by the largest
finite float and then clipped to the slot's upper bound), not the zero
the claim requires; and the finite out-of-bound velocity reading 100 of
joint 0 is returned as 50 (clipped), so a finite entry is not preserved
either. -/
theorem C7_counterexample :
    ((getObservation [EF.inf, EF.fin 0, EF.fin 0] zeroJointFn velDemo stdJi
          prevZero cmdZero).get? 0 = some (EF.fin 1)
      ∧ EF.fin (1 : ℚ) ≠ EF.fin 0)
  ∧ ((getObservation [EF.inf, EF.fin 0, EF.fin 0] zeroJointFn velDemo stdJi
          prevZero cmdZero).get? 15 = some (EF.fin 50)
      ∧ velDemo 0 = EF.fin 100 ∧ EF.fin (50 : ℚ) ≠ EF.fin 100) :=
  ⟨⟨by decide, by decide⟩, by decide, by decide, by decide⟩

/-- C7 (amended): when any produced observation value is non-finite, the
encoder returns a fully finite vector obtained by replacing every NaN
entry with zero and every infinite entry with the largest-magnitude
finite float (`np.nan_to_num`), then clamping every entry — so finite
in-bound entries are preserved, a NaN slot returns its bound-clamped
zero, an infinite slot returns its bound, and NaN/Inf is never
propagated into the returned observation. -/
theorem C7_nonfinite_fallback (g : List EF) (angle vel : Nat → EF)
    (ji : List Nat) (prev cmd : List EF)
    (hnf : (rawObs g angle vel ji prev cmd).all EF.isFinite = false) :
    (∀ x ∈ getObservation g angle vel ji prev cmd, x.isFinite = true)
  ∧ (∀ i b x, obsBounds.get? i = some b →
      (rawObs g angle vel ji prev cmd).get? i = some x →
      (getObservation g angle vel ji prev cmd).get? i
        = some (EF.clip b.1 b.2 (EF.nanToNum f32max x)))
  ∧ (∀ i b, obsBounds.get? i = some b →
      (rawObs g angle vel ji prev cmd).get? i = some EF.nan →
      (getObservation g angle vel ji prev cmd).get? i
        = some (EF.clip b.1 b.2 (EF.fin 0))) := by
  refine ⟨?_, ?_, ?_⟩
  · exact fun x hx => clipToBounds_finite obsBounds _ (sanitizeObs_finite _) x hx
  · intro i b x hb hx
    rw [getObservation, sanitizeObs_of_not_finite _ hnf]
    exact clipToBounds_get? _ _ i b _ hb (by rw [List.get?_map, hx]; rfl)
  · intro i b hb hx
    rw [getObservation, sanitizeObs_of_not_finite _ hnf]
    exact clipToBounds_get? _ _ i b _ hb (by rw [List.get?_map, hx]; rfl)

/-- C7 witness: a NaN gravity reading in slot 0 comes back as the
bound-clamped zero. -/
theorem C7_nonfinite_fallback_witness :
    (getObservation [EF.nan, EF.fin 0, EF.fin 0] zeroJointFn zeroJointFn stdJi
        prevZero cmdZero).get? 0 = some (EF.clip (-1) 1 (EF.fin 0)) :=
  (C7_nonfinite_fallback [EF.nan, EF.fin 0, EF.fin 0] zeroJointFn zeroJointFn
      stdJi prevZero cmdZero (by decide)).2.2 0 ((-1 : ℚ), (1 : ℚ))
    (by decide) (by decide)

/-- Body map of a URDF that lacks the first joint name
(`motor_front_left_hip`) while every other of the 12 names resolves to
its own physics joint index. -/
def resolveMissingFirst (n : String) : Option Nat :=
  if n = "motor_front_left_hip" then none
  else jointNames.findIdx? (fun m => m == n)

/-- Joint-angle reading distinguishing physics joints 1 and 2. -/
def demoAngle : Nat → EF :=
  fun i => if i = 1 then EF.fin 1 else if i = 2 then EF.fin 2 else EF.fin 0

/-- C2, evaluated at the failing input: with the first joint name
unresolved (all others resolved, physics joint `i` reading angle as
`demoAngle`), `_load_robot` builds the compressed index list
`[1, ..., 11]`, and `_get_observation` puts joint 1's angle into
joint-position slot 0 (observation index 3) and joint 2's angle into
slot 1 (index 4) — although name 1 resolves to joint 1 with angle 1 —
zero-padding only the last slot (index 14).  Resolved joints shift; the
unresolved joint's own slot is not the zero-padded one. -/
theorem C2_slot_shift_eval :
    buildJointIndices resolveMissingFirst = [1, 2, 3, 4, 5, 6, 7, 8, 9, 10, 11]
  ∧ resolveMissingFirst (jointNames.getD 1 "") = some 1
  ∧ demoAngle 1 = EF.fin 1
  ∧ (getObservation gZero demoAngle zeroJointFn
        (buildJointIndices resolveMissingFirst) prevZero cmdZero).get? 3
      = some (EF.fin 1)
  ∧ (getObservation gZero demoAngle zeroJointFn
        (buildJointIndices resolveMissingFirst) prevZero cmdZero).get? 4
      = some (EF.fin 2)
  ∧ (getObservation gZero demoAngle zeroJointFn
        (buildJointIndices resolveMissingFirst) prevZero cmdZero).get? 14
      = some (EF.fin 0) :=
  ⟨by decide, by decide, by decide, by decide, by decide, by decide⟩

/-- Translation of `SpotEnv._calculate_reward` (float literals as exact
rationals): inputs are the values the source unpacks from the engine —
base height `base_pos[2]`, roll and pitch from `getEulerFromQuaternion`,
world forward velocity `base_vel[0]` — together with the first stored
command component and the stored previous action. -/
def calcReward (height roll pitch velX c0 : ℚ) (prevAction : List ℚ) : ℚ :=
  let aliveReward : ℚ := if 3/20 < height then 1 else 0
  let targetVelX : ℚ := c0 * (1/2)
  let velReward : ℚ := -|velX - targetVelX|
  let orientationPenalty : ℚ := -(|roll| + |pitch|)
  let actionDiff : ℚ := (prevAction.map (fun a => a ^ 2)).sum
  let energyPenalty : ℚ := -(1/100) * actionDiff
  let heightReward : ℚ := if 1/5 < height ∧ height < 1/2 then 1/2 else -1
  aliveReward * 1 + velReward * 2 + orientationPenalty * (1/2) + energyPenalty
    + heightReward * (1/2)

/-- Alive bonus: fixed positive value above the minimum height, else 0. -/
def aliveTerm (height : ℚ) : ℚ := if 3/20 < height then 1 else 0

/-- Velocity tracking: negative absolute error to the commanded forward
velocity scaled to physical units (`command[0] * 0.5` m/s). -/
def velTrackTerm (velX c0 : ℚ) : ℚ := -|velX - c0 * (1/2)|

/-- Orientation penalty: negative sum of absolute roll and pitch. -/
def orientTerm (roll pitch : ℚ) : ℚ := -(|roll| + |pitch|)

/-- Energy penalty: negative scaled sum of squares of the previous
applied action. -/
def energyTerm (prevAction : List ℚ) : ℚ :=
  -(1/100) * (prevAction.map (fun a => a ^ 2)).sum

/-- Height band: positive inside the target band `(0.2, 0.5)`, negative
outside. -/
def heightBandTerm (height : ℚ) : ℚ :=
  if 1/5 < height ∧ height < 1/2 then 1/2 else -1

/-- C6: the reward is a pure function of (pose, velocity, command,
previous applied action) equal to the positive-weighted sum
`1*alive + 2*velTrack + 0.5*orient + 1*energy + 0.5*heightBand` of
exactly five terms, each of the claimed shape and sign. -/
theorem C6_reward_five_terms (height roll pitch velX c0 : ℚ) (prev : List ℚ) :
    calcReward height roll pitch velX c0 prev
      = 1 * aliveTerm height + 2 * velTrackTerm velX c0
        + (1/2) * orientTerm roll pitch + 1 * energyTerm prev
        + (1/2) * heightBandTerm height
  ∧ 0 ≤ aliveTerm height
  ∧ (3/20 < height → aliveTerm height = 1)
  ∧ (height ≤ 3/20 → aliveTerm height = 0)
  ∧ velTrackTerm velX c0 ≤ 0
  ∧ orientTerm roll pitch ≤ 0
  ∧ energyTerm prev ≤ 0
  ∧ (1/5 < height ∧ height < 1/2 → 0 < heightBandTerm height)
  ∧ (¬(1/5 < height ∧ height < 1/2) → heightBandTerm height < 0) := by
  refine ⟨?_, ?_, ?_, ?_, ?_, ?_, ?_, ?_, ?_⟩
  · unfold calcReward aliveTerm velTrackTerm orientTerm energyTerm heightBandTerm
    ring
  · unfold aliveTerm; split <;> norm_num
  · intro h; simp [aliveTerm, h]
  · intro h; simp [aliveTerm, not_lt.mpr h]
  · unfold velTrackTerm
    simpa using abs_nonneg (velX - c0 * (1/2))
  · unfold orientTerm
    have := abs_nonneg roll
    have := abs_nonneg pitch
    linarith
  · unfold energyTerm
    have hsum : 0 ≤ (prev.map (fun a => a ^ 2)).sum := by
      apply List.sum_nonneg
      intro x hx
      obtain ⟨y, _, rfl⟩ := List.mem_map.mp hx
      positivity
    nlinarith
  · intro h; unfold heightBandTerm; rw [if_pos h]; norm_num
  · intro h; unfold heightBandTerm; rw [if_neg h]; norm_num

/-- C6 witness: the decomposition and term signs at a concrete state. -/
theorem C6_reward_five_terms_witness :
    calcReward (3/10) 0 0 0 0 []
      = 1 * aliveTerm (3/10) + 2 * velTrackTerm 0 0
        + (1/2) * orientTerm 0 0 + 1 * energyTerm []
        + (1/2) * heightBandTerm (3/10)
  ∧ aliveTerm (3/10) = 1 ∧ 0 < heightBandTerm (3/10) := by
  have h := C6_reward_five_terms (3/10) 0 0 0 0 []
  exact ⟨h.1, h.2.2.1 (by norm_num),
    h.2.2.2.2.2.2.2.1 ⟨by norm_num, by norm_num⟩⟩

/-- State the environment reads back from the physics engine after a
tick: base position (3) and orientation quaternion (4), forward world
velocity `base_vel[0]`, the (roll, pitch) pair `getEulerFromQuaternion`
returns for that orientation, the body-frame gravity vector produced by
the engine's transform calls, and per-joint angle/velocity readings. -/
structure Reading where
  basePos : List EF
  baseOrn : List EF
  baseVelX : EF
  euler : ℚ × ℚ
  gravityBody : List EF
  jointAngle : Nat → EF
  jointVel : Nat → EF

/-- `SpotEnv._is_terminated`: non-finite pose or orientation terminates
first; then height below 0.1; then roll or pitch beyond pi/3. -/
def isTerminated (r : Reading) : Bool :=
  if !(r.basePos.all EF.isFinite && r.baseOrn.all EF.isFinite) then true
  else
    let height := (r.basePos.getD 2 (EF.fin 0)).toQ
    let roll := r.euler.1
    let pitch := r.euler.2
    if height < 1/10 then true
    else if piQ / 3 < |roll| ∨ piQ / 3 < |pitch| then true
    else false

/-- C4: whenever the base position or orientation reading contains a
non-finite value, `_is_terminated` reports termination, and it does so
for every possible euler-angle reading — the height and roll/pitch
checks are behind the early return and never influence (nor are
evaluated on) a non-finite pose. -/
theorem C4_nonfinite_pose_terminates (r : Reading)
    (h : (r.basePos.all EF.isFinite && r.baseOrn.all EF.isFinite) = false) :
    isTerminated r = true
  ∧ ∀ e : ℚ × ℚ, isTerminated { r with euler := e } = true := by
  constructor
  · simp [isTerminated, h]
  · intro e; simp [isTerminated, h]

/-- Reading of a diverged physics state: +Inf in the base height slot,
with an otherwise healthy orientation and level euler angles. -/
def readingDiverged : Reading :=
  { basePos := [EF.fin 0, EF.fin 0, EF.inf]
  , baseOrn := [EF.fin 0, EF.fin 0, EF.fin 0, EF.fin 1]
  , baseVelX := EF.fin 0
  , euler := (0, 0)
  , gravityBody := gZero
  , jointAngle := zeroJointFn
  , jointVel := zeroJointFn }

/-- C4 witness: the diverged reading terminates despite level euler
angles. -/
theorem C4_nonfinite_pose_terminates_witness :
    isTerminated readingDiverged = true :=
  (C4_nonfinite_pose_terminates readingDiverged (by decide)).1

/-- Fixed episode length cap (`SpotEnv.max_episode_steps`). -/
def maxEpisodeSteps : Nat := 1000

/-- Mutable environment state carried across steps: step counter,
stored previous action, stored command, resolved joint indices. -/
structure EnvState where
  currentStep : Nat
  previousAction : List EF
  command : List ℚ
  jointIndices : List Nat

/-- Everything one `step` call returns or sends to the engine:
the observation, reward and flags returned to the trainer, the
`(joint index, target)` position commands issued to the engine, and the
info fields. -/
structure StepOut where
  obs : List EF
  reward : ℚ
  terminated : Bool
  truncated : Bool
  issued : List (Nat × EF)
  isSuccess : Bool
  episodeLength : Nat

/-- `np.clip(action, -np.pi, np.pi)` componentwise. -/
def clampAction (a : List EF) : List EF := a.map (EF.clip (-piQ) piQ)

/-- `SpotEnv.step`: increment the counter, clamp the action, issue one
position target per resolved joint (index `i` of `joint_indices[:12]`
paired with clamped `action[i]`, skipped when the action is shorter),
store the clamped action as the previous action, then read the new
state: observation, reward, termination, truncation and info.  The
reward is evaluated on the numeric values of the reading. -/
def stepEnv (s : EnvState) (a : List EF) (r : Reading) : EnvState × StepOut :=
  let curr := s.currentStep + 1
  let act := clampAction a
  let issued := (s.jointIndices.take 12).zip act
  let prev := act
  let obs := getObservation r.gravityBody r.jointAngle r.jointVel
      s.jointIndices prev (s.command.map EF.fin)
  let reward := calcReward (r.basePos.getD 2 (EF.fin 0)).toQ r.euler.1
      r.euler.2 r.baseVelX.toQ (s.command.headD 0) (prev.map EF.toQ)
  let term := isTerminated r
  let trunc := decide (maxEpisodeSteps ≤ curr)
  (⟨curr, prev, s.command, s.jointIndices⟩,
   ⟨obs, reward, term, trunc, issued, (!term) && decide (500 < curr), curr⟩)

/-- Environment state directly after a reset: step 0, zero previous
action, zero command, fully resolved joints. -/
def envReady : EnvState := ⟨0, prevZero, [0, 0, 0], stdJi⟩

/-- Healthy reading: finite pose, height 0.3, level orientation. -/
def readingOk : Reading :=
  { basePos := [EF.fin 0, EF.fin 0, EF.fin (3/10)]
  , baseOrn := [EF.fin 0, EF.fin 0, EF.fin 0, EF.fin 1]
  , baseVelX := EF.fin 0
  , euler := (0, 0)
  , gravityBody := gZero
  , jointAngle := zeroJointFn
  , jointVel := zeroJointFn }

/-- Action whose first component is NaN. -/
def actionNaN : List EF := EF.nan :: List.replicate 11 (EF.fin 0)

/-- C3 counterexample: a NaN action component passes `np.clip`
unchanged, so the target issued to joint 0 is NaN — a value outside
`[-pi, pi]` — refuting "no issued target is ever outside [-pi, pi]". -/
theorem C3_counterexample :
    (stepEnv envReady actionNaN readingOk).2.issued.get? 0
      = some (0, EF.nan)
  ∧ inSlotBound (-piQ) piQ EF.nan = false :=
  ⟨by decide, rfl⟩

lemma EF.inSlotBound_clip_of_ne_nan (lo hi : ℚ) (x : EF) (hlo : lo ≤ hi)
    (hx : x ≠ EF.nan) : inSlotBound lo hi (EF.clip lo hi x) = true := by
  cases x with
  | fin q => exact EF.inSlotBound_clip lo hi (EF.fin q) hlo rfl
  | nan => exact absurd rfl hx
  | inf =>
      simp only [EF.clip, inSlotBound, decide_eq_true_eq]
      exact ⟨hlo, le_refl hi⟩
  | ninf =>
      simp only [EF.clip, inSlotBound, decide_eq_true_eq]
      exact ⟨le_refl lo, hlo⟩

lemma zip_get?_snd {α β : Type} :
    ∀ (l1 : List α) (l2 : List β) (i : Nat), i < l1.length →
      ((l1.zip l2).get? i).map Prod.snd = l2.get? i := by
  intro l1
  induction l1 with
  | nil => intro l2 i h; simp at h
  | cons x l1 ih =>
      intro l2 i h
      cases l2 with
      | nil => simp
      | cons y l2 =>
          cases i with
          | zero => rfl
          | succ n =>
              simp only [List.zip_cons_cons, List.get?_cons_succ]
              exact ih l2 n (by simpa using h)

lemma neg_piQ_le_piQ : -piQ ≤ piQ := by norm_num [piQ_eq]

/-- C3 (amended): each issued joint target equals the componentwise
clamp of the raw action at the same index, and the stored previous
action is the clamped applied action; every issued target lies inside
`[-pi, pi]` provided no action entry is NaN (a NaN entry is issued as
NaN, see the counterexample). -/
theorem C3_clamped_targets (s : EnvState) (a : List EF) (r : Reading) :
    ((∀ x ∈ a, x ≠ EF.nan) →
      ((stepEnv s a r).2.issued.all fun t => inSlotBound (-piQ) piQ t.2) = true)
  ∧ (∀ i, i < (s.jointIndices.take 12).length →
      ((stepEnv s a r).2.issued.get? i).map Prod.snd
        = (a.get? i).map (EF.clip (-piQ) piQ))
  ∧ (stepEnv s a r).1.previousAction = clampAction a := by
  refine ⟨?_, ?_, rfl⟩
  · intro hnn
    rw [List.all_eq_true]
    intro t ht
    have hmem : t.2 ∈ clampAction a := (List.of_mem_zip ht).2
    obtain ⟨x, hx, hcl⟩ := List.mem_map.mp hmem
    rw [← hcl]
    exact EF.inSlotBound_clip_of_ne_nan (-piQ) piQ x neg_piQ_le_piQ (hnn x hx)
  · intro i hi
    have h := zip_get?_snd (s.jointIndices.take 12) (clampAction a) i hi
    calc ((stepEnv s a r).2.issued.get? i).map Prod.snd
        = (clampAction a).get? i := h
      _ = (a.get? i).map (EF.clip (-piQ) piQ) := List.get?_map _ _ _

/-- Action with a finite out-of-range first component (10 rad). -/
def actionBig : List EF := EF.fin 10 :: List.replicate 11 (EF.fin 0)

/-- C3 witness: with a NaN-free action every issued target passes the
bound check. -/
theorem C3_clamped_targets_witness :
    ((stepEnv envReady actionBig readingOk).2.issued.all
        fun t => inSlotBound (-piQ) piQ t.2) = true :=
  (C3_clamped_targets envReady actionBig readingOk).1 (by decide)

/-- Environment state one step short of the episode cap. -/
def envAtCap : EnvState := ⟨999, prevZero, [0, 0, 0], stdJi⟩

/-- C5 counterexample: at step 1000 with a diverged (non-finite) pose
the step reports terminated = true AND truncated = true — the two flags
are not mutually exclusive, refuting "never both true" and "TERMINATED
and not TRUNCATED at the cap". -/
theorem C5_counterexample :
    (stepEnv envAtCap prevZero readingDiverged).2.terminated = true
  ∧ (stepEnv envAtCap prevZero readingDiverged).2.truncated = true :=
  ⟨by decide, by decide⟩

/-- C5 (amended): terminated and truncated are computed independently —
a termination condition yields terminated regardless of the counter, the
step cap yields truncated regardless of termination, so the two flags
are both true when a fall/tip/divergence coincides with the cap; the
cap alone with no termination yields truncated and not terminated, and
a termination before the cap yields terminated and not truncated. -/
theorem C5_flags_independent (s : EnvState) (a : List EF) (r : Reading) :
    (isTerminated r = true → s.currentStep + 1 < maxEpisodeSteps →
      (stepEnv s a r).2.terminated = true ∧ (stepEnv s a r).2.truncated = false)
  ∧ (isTerminated r = false → maxEpisodeSteps ≤ s.currentStep + 1 →
      (stepEnv s a r).2.terminated = false ∧ (stepEnv s a r).2.truncated = true)
  ∧ (isTerminated r = true → maxEpisodeSteps ≤ s.currentStep + 1 →
      (stepEnv s a r).2.terminated = true ∧ (stepEnv s a r).2.truncated = true)
  ∧ (isTerminated r = false → s.currentStep + 1 < maxEpisodeSteps →
      (stepEnv s a r).2.terminated = false ∧ (stepEnv s a r).2.truncated = false) := by
  refine ⟨?_, ?_, ?_, ?_⟩ <;> intro h1 h2 <;>
    constructor <;> simp [stepEnv, h1] <;> omega

/-- C5 witness: the cap alone, with a healthy pose, truncates without
terminating. -/
theorem C5_flags_independent_witness :
    (stepEnv envAtCap prevZero readingOk).2.terminated = false
  ∧ (stepEnv envAtCap prevZero readingOk).2.truncated = true :=
  (C5_flags_independent envAtCap prevZero readingOk).2.1
    (by simp [isTerminated, readingOk, EF.toQ, EF.isFinite]; norm_num [piQ_eq])
    (by decide)

lemma map_fin_nanToNum (c : List ℚ) :
    (c.map EF.fin).map (EF.nanToNum f32max) = c.map EF.fin := by
  simp [List.map_map, Function.comp, EF.nanToNum]

lemma obsBounds_drop_39 : obsBounds.drop 39 = List.replicate 3 (-1, 1) := by
  decide

lemma getObservation_command_slots (g : List EF) (angle vel : Nat → EF)
    (ji : List Nat) (prev : List EF) (c : List ℚ) (hg : g.length = 3)
    (hp : prev.length = 12) (hc : c.length = 3) :
    (getObservation g angle vel ji prev (c.map EF.fin)).drop 39
      = c.map (fun q => EF.fin (min (max q (-1)) 1)) := by
  obtain ⟨q1, q2, q3, rfl⟩ := List.length_eq_three.mp hc
  have hA : (g ++ (padTo12 (ji.map angle)).take 12
      ++ (padTo12 (ji.map vel)).take 12 ++ prev).length = 39 := by
    have h1 := padTo12_take_length (ji.map angle)
    have h2 := padTo12_take_length (ji.map vel)
    simp only [List.length_append, hg, hp, h1, h2]
  have hsan : ∃ A : List EF, A.length = 39 ∧
      sanitizeObs (rawObs g angle vel ji prev ([q1, q2, q3].map EF.fin))
        = A ++ [q1, q2, q3].map EF.fin := by
    unfold sanitizeObs rawObs
    split
    · exact ⟨_, hA, rfl⟩
    · refine ⟨(g ++ (padTo12 (ji.map angle)).take 12
        ++ (padTo12 (ji.map vel)).take 12 ++ prev).map (EF.nanToNum f32max),
        by simpa using hA, ?_⟩
      rw [List.map_append, map_fin_nanToNum]
  obtain ⟨A, hAlen, hEq⟩ := hsan
  rw [getObservation, hEq, clipToBounds, List.drop_zipWith,
    List.drop_left' hAlen, obsBounds_drop_39]
  simp [EF.clip]

/-- Fold of `stepEnv` over a list of per-step (action, reading) pairs:
the environment state after that many step calls. -/
def runSteps (s : EnvState) (l : List (List EF × Reading)) : EnvState :=
  l.foldl (fun t ar => (stepEnv t ar.1 ar.2).1) s

lemma runSteps_command :
    ∀ (l : List (List EF × Reading)) (s : EnvState),
      (runSteps s l).command = s.command := by
  intro l
  induction l with
  | nil => intro s; rfl
  | cons ar l ih =>
      intro s
      calc (runSteps ((stepEnv s ar.1 ar.2).1) l).command
          = (stepEnv s ar.1 ar.2).1.command := ih _
        _ = s.command := rfl

/-- One draw of numpy's global uniform sampler: from the current global
generator state and the interval bounds, a value and the successor
state.  The generator's algorithm lives outside the repository, so the
transition is abstract. -/
def sampleCommand (draw : Nat → ℚ → ℚ → ℚ × Nat) (g : Nat) :
    List ℚ × Nat :=
  let vx := draw g (-1) 1
  let vy := draw vx.2 (-(1/2)) (1/2)
  let wz := draw vy.2 (-(1/2)) (1/2)
  ([vx.1, vy.1, wz.1], wz.2)

/-- Everything `SpotEnv.reset` produces: the fresh environment state,
the initial observation, and the global generator state it leaves
behind. -/
structure ResetOut where
  state : EnvState
  obs : List EF
  globalRng : Nat

set_option linter.unusedVariables false in
/-- `SpotEnv.reset`: rebuild the joint map, zero the step counter and
previous action, store the override command exactly as supplied or
sample a default from the global generator state `g`, and return the
initial observation.  `seed` is handed to `super().reset(seed=seed)`,
which seeds the gymnasium `self.np_random` generator — a generator this
method never reads: the default command is drawn from the global
`np.random` state. -/
def resetEnv (resolve : String → Option Nat) (draw : Nat → ℚ → ℚ → ℚ × Nat)
    (g : Nat) (seed : Option Nat) (override : Option (List ℚ))
    (r : Reading) : ResetOut :=
  let ji := buildJointIndices resolve
  let cg : List ℚ × Nat :=
    match override with
    | some c => (c, g)
    | none => sampleCommand draw g
  let st : EnvState := ⟨0, List.replicate 12 (EF.fin 0), cg.1, ji⟩
  ⟨st, getObservation r.gravityBody r.jointAngle r.jointVel ji
      st.previousAction (cg.1.map EF.fin), cg.2⟩

/-- Concrete stand-in for the global stateful uniform sampler: an even
state returns the interval's lower end, an odd state its upper end, and
every draw advances the state by one. -/
def drawAlt : Nat → ℚ → ℚ → ℚ × Nat :=
  fun g lo hi => (if g % 2 = 0 then lo else hi, g + 1)

/-- C8, evaluated at the failing input: two consecutive `reset(seed=42)`
calls with no override — the second starting from the global generator
state the first left behind — store different default commands, because
the command is drawn from the seed-independent global `np.random`
state; the final conjunct shows the seed argument has no influence on
the sampled command at all. -/
theorem C8_seed_not_deterministic :
    (resetEnv (fun n => some 0) drawAlt 0 (some 42) none readingOk).state.command
      = [-1, 1/2, -(1/2)]
  ∧ (resetEnv (fun n => some 0) drawAlt 0 (some 42) none readingOk).globalRng = 3
  ∧ (resetEnv (fun n => some 0) drawAlt 3 (some 42) none readingOk).state.command
      = [1, -(1/2), 1/2]
  ∧ (resetEnv (fun n => some 0) drawAlt 0 (some 42) none readingOk).state.command
      ≠ (resetEnv (fun n => some 0) drawAlt 3 (some 42) none readingOk).state.command
  ∧ (∀ (s1 s2 : Option Nat) (g : Nat),
      (resetEnv (fun n => some 0) drawAlt g s1 none readingOk).state.command
        = (resetEnv (fun n => some 0) drawAlt g s2 none readingOk).state.command) := by
  refine ⟨?_, ?_, ?_, ?_, fun s1 s2 g => rfl⟩ <;>
    norm_num [resetEnv, sampleCommand, drawAlt]

/-- C10: a command override supplied at reset is stored exactly as
given, without clamping; the stored command never changes across steps;
the reward of every subsequent step is `calcReward` applied with the
raw stored first command component (whose velocity-tracking target is
`0.5 * c0`, see the fourth conjunct) even when the override lies
outside the documented [-1, 1] range — while the observation's three
command slots hold only the values clamped into [-1, 1]. -/
theorem C10_override_raw_reward_clamped_obs
    (resolve : String → Option Nat) (draw : Nat → ℚ → ℚ → ℚ × Nat)
    (g : Nat) (seed : Option Nat) (rr : Reading) (c : List ℚ)
    (l : List (List EF × Reading)) (a : List EF) (r : Reading)
    (hc : c.length = 3) (ha : a.length = 12) (hg : r.gravityBody.length = 3) :
    (resetEnv resolve draw g seed (some c) rr).state.command = c
  ∧ (runSteps (resetEnv resolve draw g seed (some c) rr).state l).command = c
  ∧ (stepEnv (runSteps (resetEnv resolve draw g seed (some c) rr).state l) a r).2.reward
      = calcReward (r.basePos.getD 2 (EF.fin 0)).toQ r.euler.1 r.euler.2
          r.baseVelX.toQ (c.headD 0) ((clampAction a).map EF.toQ)
  ∧ (∀ vx : ℚ, velTrackTerm vx (c.headD 0) = -|vx - c.headD 0 * (1/2)|)
  ∧ (stepEnv (runSteps (resetEnv resolve draw g seed (some c) rr).state l) a r).2.obs.drop 39
      = c.map (fun q => EF.fin (min (max q (-1)) 1)) := by
  have hcmd : (runSteps (resetEnv resolve draw g seed (some c) rr).state l).command = c :=
    runSteps_command l _
  refine ⟨rfl, hcmd, ?_, fun vx => rfl, ?_⟩
  · show calcReward _ _ _ _
      ((runSteps (resetEnv resolve draw g seed (some c) rr).state l).command.headD 0) _ = _
    rw [hcmd]
  · show (getObservation r.gravityBody r.jointAngle r.jointVel _
      (clampAction a) ((runSteps (resetEnv resolve draw g seed (some c) rr).state l).command.map EF.fin)).drop 39 = _
    rw [hcmd]
    exact getObservation_command_slots r.gravityBody r.jointAngle r.jointVel _
      (clampAction a) c hg (by simp [clampAction, ha]) hc

/-- Out-of-range command override: forward component 2, twice the
documented upper bound. -/
def cmdBig : List ℚ := [2, 0, 0]

/-- C10 witness: the override [2, 0, 0] is stored raw, and the
observation command slots after a step hold the clamped [1, 0, 0]. -/
theorem C10_override_raw_reward_clamped_obs_witness :
    (resetEnv (fun n => some 0) drawAlt 0 none (some cmdBig) readingOk).state.command = cmdBig
  ∧ (stepEnv (runSteps (resetEnv (fun n => some 0) drawAlt 0 none (some cmdBig) readingOk).state [])
        prevZero readingOk).2.obs.drop 39 = [EF.fin 1, EF.fin 0, EF.fin 0] := by
  have h := C10_override_raw_reward_clamped_obs (fun n => some 0) drawAlt 0 none
    readingOk cmdBig [] prevZero readingOk (by rfl) (by rfl) (by rfl)
  refine ⟨h.1, ?_⟩
  rw [h.2.2.2.2]
  norm_num [cmdBig]

/-- Connection state of the physics server for one client: whether the
connection is live, how many disconnect calls it received, and how many
of those were faults (pybullet raises `error: Not connected` when
disconnecting an already-released client). -/
structure PhysicsConn where
  connected : Bool
  disconnectCalls : Nat
  faults : Nat

/-- `p.disconnect`: releases a live connection; called on an
already-released connection the call is counted as a fault. -/
def pDisconnect (c : PhysicsConn) : PhysicsConn :=
  if c.connected then
    { c with connected := false, disconnectCalls := c.disconnectCalls + 1 }
  else
    { c with disconnectCalls := c.disconnectCalls + 1, faults := c.faults + 1 }

/-- The state `SpotEnv.close` touches: the stored client id (which the
method never resets) and the connection behind it. -/
structure CloseState where
  client : Int
  conn : PhysicsConn

/-- `SpotEnv.close`: `if self.client >= 0: p.disconnect(self.client)`;
nothing ever sets `self.client` to a negative value afterwards. -/
def closeEnv (s : CloseState) : CloseState :=
  if 0 ≤ s.client then { s with conn := pDisconnect s.conn } else s

/-- Freshly connected environment as `__init__` leaves it: pybullet
client id 0, live connection, no disconnects yet. -/
def connectedEnv : CloseState := ⟨0, ⟨true, 0, 0⟩⟩

/-- C9, evaluated at the failing input `close(); close()`: the second
close passes the `client >= 0` guard again — the client id is still 0 —
so disconnect is invoked twice and the second invocation faults on the
already-released connection.  `close` is not idempotent and the
connection is not released at most once. -/
theorem C9_close_not_idempotent :
    (closeEnv connectedEnv).client = 0
  ∧ (closeEnv (closeEnv connectedEnv)).conn.disconnectCalls = 2
  ∧ (closeEnv (closeEnv connectedEnv)).conn.faults = 1 :=
  ⟨by decide, by decide, by decide⟩
